import Mathlib

/-!
Verification of the conversation-target state machine, handshake, receiver
line classification and send helpers of a small line-based TCP chat client
(`chat_client.py`).

Python strings are embedded as `List Char` (`Str`), the shared client session
state as the structure `ClientState`, and every operation of the client as a
pure Lean function.  I/O outcomes (whether a socket send succeeded, what the
blocking receive returned) are passed in as explicit parameters; the text that
an operation hands to the transport is returned explicitly so that "nothing
was sent" is an observable fact.
-/

namespace Chat

/-- Python `str`, embedded as a list of characters. -/
abbrev Str := List Char

/-- Python `str.isspace` on the characters `str.strip()` removes
(ASCII whitespace). -/
def isSpaceChar (c : Char) : Bool :=
  c = ' ' || c = '\t' || c = '\n' || c = '\r' || c = '\x0b' || c = '\x0c'

/-- Remove trailing whitespace (the right half of Python `str.strip()`). -/
def stripRight (cs : Str) : Str :=
  (cs.reverse.dropWhile isSpaceChar).reverse

/-- Python `str.strip()`: remove leading and trailing whitespace. -/
def pyStrip (cs : Str) : Str :=
  stripRight (cs.dropWhile isSpaceChar)

/-- Split at the first occurrence of `sep`: Python `s.split(sep, 1)` when the
separator occurs, `none` when it does not. -/
def splitOnceAt (sep : Char) : Str → Option (Str × Str)
  | [] => none
  | c :: t =>
    if c = sep then some ([], t)
    else
      match splitOnceAt sep t with
      | none => none
      | some (a, b) => some (c :: a, b)

/-- Python `s.split(sep, 2)[1]`: the segment strictly between the first and
second occurrence of `sep` (up to the end of the string when `sep` occurs only
once), `none` when `sep` does not occur at all (Python raises `IndexError`,
which the source catches). -/
def part1 (sep : Char) (cs : Str) : Option Str :=
  match splitOnceAt sep cs with
  | none => none
  | some (_, rest) =>
    match splitOnceAt sep rest with
    | none => some rest
    | some (mid, _) => some mid

/-- Python `needle in hay` (substring containment). -/
def containsSub (needle : Str) : Str → Bool
  | [] => needle.isEmpty
  | c :: t => needle.isPrefixOf (c :: t) || containsSub needle t

/-- The shared session state of `ChatClient`: the `_connected` flag, the
active chat target `_current_target`, the history stack `_target_stack`
(Python list, pushed and popped at the back), and the registered `name`. -/
structure ClientState where
  connected : Bool
  currentTarget : Option Str
  targetStack : List Str
  name : Str
deriving DecidableEq, Repr

/-- The state built by `ChatClient.__init__` (before `connect`). -/
def initState : ClientState :=
  { connected := false, currentTarget := none, targetStack := [], name := [] }

/-- `ChatClient._set_disconnected`: drop the connected flag and clear all
conversational state. -/
def setDisconnected (s : ClientState) : ClientState :=
  { s with connected := false, currentTarget := none, targetStack := [] }

/-- `ChatClient.close`: closing the socket never raises; the state effect is
exactly `_set_disconnected`. -/
def close (s : ClientState) : ClientState :=
  setDisconnected s

/-- The user-visible notifications the client prints, as structured events. -/
inductive Output where
  | newMessageFrom (sender : Str)
  | endedBackTo (sender back : Str)
  | endedClosed (sender : Str)
  | endedInfo (sender : Str)
  | unavailBackTo (user back : Str)
  | unavailClosed (user : Str)
  | raw (line : Str)
deriving DecidableEq, Repr

/-- The literal `"FROM "` tested by `line.startswith("FROM ")`. -/
def fromTag : Str := ['F', 'R', 'O', 'M', ' ']

/-- The literal `"SYS END "` tested by `line.startswith("SYS END ")`. -/
def sysEndTag : Str := ['S', 'Y', 'S', ' ', 'E', 'N', 'D', ' ']

/-- The literal `"ERR User '"` tested by `line.startswith("ERR User '")`. -/
def errUserTag : Str := ['E', 'R', 'R', ' ', 'U', 's', 'e', 'r', ' ', '\'']

/-- The literal `"' not found"` tested by `"' not found" in line`. -/
def notFoundTag : Str := ['\'', ' ', 'n', 'o', 't', ' ', 'f', 'o', 'u', 'n', 'd']

/-- The literal `"' disconnected"` tested by `"' disconnected" in line`. -/
def discTag : Str :=
  ['\'', ' ', 'd', 'i', 's', 'c', 'o', 'n', 'n', 'e', 'c', 't', 'e', 'd']

/-- The sender extraction of the `FROM` branch:
`parts = line.split(" ", 2); sender = parts[1].strip() if len(parts) >= 2 else ""`. -/
def fromSender (line : Str) : Str :=
  match part1 ' ' line with
  | none => []
  | some p => pyStrip p

/-- The target-restore step shared by the `SYS END` and `ERR User` branches of
`_recv_loop` (and by `end_current_chat`): pop the back of `_target_stack` into
`_current_target` when the stack is non-empty, otherwise clear
`_current_target`. -/
def popOrClear (s : ClientState) : ClientState × Option Str :=
  match s.targetStack.getLast? with
  | some back =>
    ({ s with currentTarget := some back, targetStack := s.targetStack.dropLast },
     some back)
  | none => ({ s with currentTarget := none }, none)

/-- One iteration of the inner per-line loop of `ChatClient._recv_loop`:
strip the line, skip it when empty, report `FROM` messages, apply the
target-restore rule on `SYS END <name>` (consuming the line) and on
`ERR User '<name>' not found / disconnected`, and echo every non-`SYS END`
line verbatim.  Returns the updated state and the printed notifications. -/
def processLine (s : ClientState) (rawLine : Str) : ClientState × List Output :=
  let line := pyStrip rawLine
  if line = [] then (s, [])
  else
    let fromOut : List Output :=
      if fromTag.isPrefixOf line then
        let sender := fromSender line
        if sender ≠ [] then [Output.newMessageFrom sender] else []
      else []
    if sysEndTag.isPrefixOf line then
      let sender := pyStrip (line.drop 8)
      if s.currentTarget = some sender then
        match s.targetStack.getLast? with
        | some back =>
          ({ s with currentTarget := some back, targetStack := s.targetStack.dropLast },
           fromOut ++ [Output.endedBackTo sender back])
        | none =>
          ({ s with currentTarget := none }, fromOut ++ [Output.endedClosed sender])
      else (s, fromOut ++ [Output.endedInfo sender])
    else if errUserTag.isPrefixOf line &&
        (containsSub notFoundTag line || containsSub discTag line) then
      match part1 '\'' line with
      | some user =>
        if user ≠ [] then
          if s.currentTarget = some user then
            match s.targetStack.getLast? with
            | some back =>
              ({ s with currentTarget := some back, targetStack := s.targetStack.dropLast },
               fromOut ++ [Output.unavailBackTo user back, Output.raw line])
            | none =>
              ({ s with currentTarget := none },
               fromOut ++ [Output.unavailClosed user, Output.raw line])
          else (s, fromOut ++ [Output.raw line])
        else (s, fromOut ++ [Output.raw line])
      | none => (s, fromOut ++ [Output.raw line])
    else (s, fromOut ++ [Output.raw line])

/-- The line framer of `_recv_loop`: Python's
`while "\n" in buffer: line, buffer = buffer.split("\n", 1)`.
Returns the complete (newline-delimited) lines and the remaining buffer. -/
def extractLines : Str → List Str × Str
  | [] => ([], [])
  | c :: t =>
    let r := extractLines t
    if c = '\n' then ([] :: r.1, r.2)
    else
      match r.1 with
      | [] => ([], c :: r.2)
      | l :: ls => ((c :: l) :: ls, r.2)

/-- Run `processLine` over a list of framed lines, threading the state and
concatenating the notifications. -/
def processLines (s : ClientState) : List Str → ClientState × List Output
  | [] => (s, [])
  | l :: ls =>
    let r := processLine s l
    let r2 := processLines r.1 ls
    (r2.1, r.2 ++ r2.2)

/-- The outcome of one blocking `self.sock.recv(1024)` call in `_recv_loop`:
an `OSError`, a clean close (zero bytes), or a chunk of bytes. -/
inductive RecvEvent where
  | err
  | eof
  | dataChunk (bytes : Str)
deriving DecidableEq, Repr

/-- One iteration of the outer loop of `ChatClient._recv_loop`, acting on the
session state and the stream buffer.  On a socket error or a clean server
close the session is marked disconnected and the loop stops (`continue? =
false`); on data the buffer is extended, complete lines are framed out and
each is processed. -/
def recvStep (s : ClientState) (buffer : Str) (ev : RecvEvent) :
    ClientState × Str × List Output × Bool :=
  match ev with
  | RecvEvent.err => (setDisconnected s, buffer, [], false)
  | RecvEvent.eof => (setDisconnected s, buffer, [], false)
  | RecvEvent.dataChunk bytes =>
    let fr := extractLines (buffer ++ bytes)
    let r := processLines s fr.1
    (r.1, fr.2, r.2, true)

/-- `ChatClient.open_chat`: strip the target and ignore it when empty;
otherwise push the previous target onto `_target_stack` when one is active
and differs from the new one, and install the new target. -/
def openChat (s : ClientState) (target0 : Str) : ClientState :=
  let target := pyStrip target0
  if target = [] then s
  else
    let push : Bool :=
      match s.currentTarget with
      | some prev => prev ≠ [] && prev ≠ target
      | none => false
    { s with
      targetStack :=
        if push then s.targetStack ++ [s.currentTarget.getD []] else s.targetStack,
      currentTarget := some target }

/-- The result of a client operation that may talk to the transport:
the resulting session state, the Python return value, and the exact text
handed to `sock.sendall` (`none` when no send was attempted). -/
structure SendResult where
  state : ClientState
  ret : Bool
  wire : Option Str
deriving DecidableEq, Repr

/-- `ChatClient._safe_send`: hand `text` to `sock.sendall`; on failure mark
the session disconnected and return `False`. `ok` is the outcome of the
socket write. -/
def safeSend (s : ClientState) (text : Str) (ok : Bool) : SendResult :=
  if ok then { state := s, ret := true, wire := some text }
  else { state := setDisconnected s, ret := false, wire := some text }

/-- The f-string `f"HELLO {name}\n"` of `handshake`. -/
def helloWire (name : Str) : Str :=
  ['H', 'E', 'L', 'L', 'O', ' '] ++ name ++ ['\n']

/-- The f-string `f"END {target}\n"` of `end_current_chat`. -/
def endWire (target : Str) : Str :=
  ['E', 'N', 'D', ' '] ++ target ++ ['\n']

/-- The f-string `f"TO {target} {message}\n"` of `send_to_current`. -/
def toWire (target message : Str) : Str :=
  ['T', 'O', ' '] ++ target ++ [' '] ++ message ++ ['\n']

/-- The newline normalisation of `send_one_off`:
`if not raw_to_command.endswith("\n"): raw_to_command += "\n"`. -/
def oneOffWire (raw : Str) : Str :=
  if raw.getLast? = some '\n' then raw else raw ++ ['\n']

/-- The literal `"Server full"` tested by `"Server full" in reply`. -/
def serverFullTag : Str :=
  ['S', 'e', 'r', 'v', 'e', 'r', ' ', 'f', 'u', 'l', 'l']

/-- The literal `"ERR"` tested by `reply.startswith("ERR")`. -/
def errTag : Str := ['E', 'R', 'R']

/-- The literal `"OK"` tested by `reply.startswith("OK")`. -/
def okTag : Str := ['O', 'K']

/-- The terminal outcome of `ChatClient.handshake`: the returned strings
`"OK"`, `"RETRY"` and `"EXIT"`. -/
inductive HandshakeResult where
  | ok
  | retry
  | exit
deriving DecidableEq, Repr

/-- `ChatClient.handshake`: strip the candidate name and reject it locally
when empty; otherwise send `HELLO <name>\n` (failure is fatal), block for one
reply (`recv = none` models an `OSError`, also fatal), and classify the
stripped reply: contains `Server full` → close and exit; starts with `ERR` →
retry; starts with `OK` → record the name; anything else → retry. -/
def handshake (s : ClientState) (name0 : Str) (sendOk : Bool)
    (recv : Option Str) : ClientState × HandshakeResult × Option Str :=
  let name := pyStrip name0
  if name = [] then (s, HandshakeResult.retry, none)
  else
    let w := helloWire name
    if !sendOk then (setDisconnected s, HandshakeResult.exit, some w)
    else
      match recv with
      | none => (setDisconnected s, HandshakeResult.exit, some w)
      | some raw =>
        let reply := pyStrip raw
        if containsSub serverFullTag reply then
          (close s, HandshakeResult.exit, some w)
        else if errTag.isPrefixOf reply then (s, HandshakeResult.retry, some w)
        else if okTag.isPrefixOf reply then
          ({ s with name := name }, HandshakeResult.ok, some w)
        else (s, HandshakeResult.retry, some w)

/-- `ChatClient.end_current_chat`: with no truthy active target this is a
successful no-op; otherwise send `END <target>\n` (a failed send disconnects
and returns `False`) and pop the previous target back in, or clear. -/
def endCurrentChat (s : ClientState) (sendOk : Bool) : SendResult :=
  match s.currentTarget with
  | none => { state := s, ret := true, wire := none }
  | some target =>
    if target = [] then { state := s, ret := true, wire := none }
    else
      let sent := safeSend s (endWire target) sendOk
      if sent.ret then
        { state := (popOrClear sent.state).1, ret := true, wire := sent.wire }
      else { state := sent.state, ret := false, wire := sent.wire }

/-- `ChatClient.send_to_current`: with no truthy active target, print
guidance, send nothing and return `True`; otherwise send
`TO <target> <message>\n`. -/
def sendToCurrent (s : ClientState) (message : Str) (sendOk : Bool) : SendResult :=
  match s.currentTarget with
  | none => { state := s, ret := true, wire := none }
  | some target =>
    if target = [] then { state := s, ret := true, wire := none }
    else safeSend s (toWire target message) sendOk

/-- `ChatClient.send_one_off`: append a newline when absent and send the
caller-supplied line without touching the target state. -/
def sendOneOff (s : ClientState) (raw : Str) (sendOk : Bool) : SendResult :=
  safeSend s (oneOffWire raw) sendOk

/-! ### Helper lemmas about the string primitives -/

/-- The line `FROM A hi` of the spec's two-chunk receiver example. -/
def lineA : Str := ['F', 'R', 'O', 'M', ' ', 'A', ' ', 'h', 'i']

/-- The chunk `"FROM A hi\n"`. -/
def chunkA : Str := ['F', 'R', 'O', 'M', ' ', 'A', ' ', 'h', 'i', '\n']

/-- The line `FROM B yo`. -/
def lineB : Str := ['F', 'R', 'O', 'M', ' ', 'B', ' ', 'y', 'o']

/-- The chunk `"FROM B yo\n"`. -/
def chunkB : Str := ['F', 'R', 'O', 'M', ' ', 'B', ' ', 'y', 'o', '\n']

/-- A protocol name token: non-empty, no whitespace, no quote character. -/
def isName (n : Str) : Prop :=
  n ≠ [] ∧ ∀ c ∈ n, isSpaceChar c = false ∧ c ≠ '\''

instance (n : Str) : Decidable (isName n) := by
  unfold isName; infer_instance

theorem isPrefixOf_self_append (l r : Str) : l.isPrefixOf (l ++ r) = true := by
  simp [List.isPrefixOf_iff_prefix]

theorem not_isPrefixOf_of_head_ne {a b : Char} {as bs : Str} (h : ¬a = b) :
    (a :: as).isPrefixOf (b :: bs) = false := by
  simp [List.isPrefixOf_cons₂, h]

theorem dropWhile_isSpace_cons {c : Char} {t : Str} (h : isSpaceChar c = false) :
    (c :: t).dropWhile isSpaceChar = c :: t := by
  simp [List.dropWhile_cons, h]

theorem stripRight_eq_self {cs : Str}
    (h : cs.getLast?.all (fun c => !isSpaceChar c) = true) : stripRight cs = cs := by
  unfold stripRight
  cases hr : cs.reverse with
  | nil =>
    have : cs = [] := by simpa using congrArg List.reverse hr
    simp [this]
  | cons d t =>
    have hd : cs.getLast? = some d := by
      rw [List.getLast?_eq_head?_reverse, hr]; rfl
    have hds : isSpaceChar d = false := by
      rw [hd] at h; simpa using h
    rw [dropWhile_isSpace_cons hds, ← hr, List.reverse_reverse]

theorem pyStrip_eq_self {cs : Str}
    (h1 : cs.head?.all (fun c => !isSpaceChar c) = true)
    (h2 : cs.getLast?.all (fun c => !isSpaceChar c) = true) : pyStrip cs = cs := by
  unfold pyStrip
  cases cs with
  | nil => rfl
  | cons c t =>
    have hc : isSpaceChar c = false := by simpa using h1
    rw [dropWhile_isSpace_cons hc]
    exact stripRight_eq_self h2

theorem getLast?_all_of_token {n : Str} (hne : n ≠ [])
    (hch : ∀ c ∈ n, isSpaceChar c = false) :
    n.getLast?.all (fun c => !isSpaceChar c) = true := by
  rw [List.getLast?_eq_getLast n hne]
  simpa using hch _ (List.getLast_mem hne)

theorem getLast?_all_append_of_token {l n : Str} (hne : n ≠ [])
    (hch : ∀ c ∈ n, isSpaceChar c = false) :
    (l ++ n).getLast?.all (fun c => !isSpaceChar c) = true := by
  rw [List.getLast?_append, List.getLast?_eq_getLast n hne]
  simpa using hch _ (List.getLast_mem hne)

theorem pyStrip_token {n : Str} (hne : n ≠ [])
    (hch : ∀ c ∈ n, isSpaceChar c = false) : pyStrip n = n := by
  refine pyStrip_eq_self ?_ (getLast?_all_of_token hne hch)
  cases n with
  | nil => rfl
  | cons c t => simpa using hch c (by simp)

theorem splitOnceAt_append_cons (sep : Char) :
    ∀ (a : Str), (∀ c ∈ a, ¬c = sep) → ∀ b,
      splitOnceAt sep (a ++ sep :: b) = some (a, b) := by
  intro a
  induction a with
  | nil => intro _ b; simp [splitOnceAt]
  | cons c a' ih =>
    intro h b
    have hc : ¬c = sep := h c (by simp)
    have := ih (fun x hx => h x (by simp [hx])) b
    simp [splitOnceAt, hc, this]

theorem splitOnceAt_eq_none {sep : Char} :
    ∀ {a : Str}, (∀ c ∈ a, ¬c = sep) → splitOnceAt sep a = none := by
  intro a
  induction a with
  | nil => intro _; rfl
  | cons c a' ih =>
    intro h
    have hc : ¬c = sep := h c (by simp)
    simp [splitOnceAt, hc, ih (fun x hx => h x (by simp [hx]))]

theorem part1_between {sep : Char} {p m r : Str}
    (hp : ∀ c ∈ p, ¬c = sep) (hm : ∀ c ∈ m, ¬c = sep) :
    part1 sep (p ++ sep :: (m ++ sep :: r)) = some m := by
  simp only [part1, splitOnceAt_append_cons sep p hp, splitOnceAt_append_cons sep m hm]

theorem part1_after {sep : Char} {p m : Str}
    (hp : ∀ c ∈ p, ¬c = sep) (hm : ∀ c ∈ m, ¬c = sep) :
    part1 sep (p ++ sep :: m) = some m := by
  simp only [part1, splitOnceAt_append_cons sep p hp, splitOnceAt_eq_none hm]

theorem stripRight_append (xs ys : Str) :
    stripRight (xs ++ ys) =
      if stripRight ys = [] then stripRight xs else xs ++ stripRight ys := by
  unfold stripRight
  rw [List.reverse_append, List.dropWhile_append]
  by_cases h : (List.dropWhile isSpaceChar ys.reverse).isEmpty
  · have h' : (List.dropWhile isSpaceChar ys.reverse).reverse = [] := by
      rw [List.isEmpty_iff] at h
      simp [h]
    simp [h, h']
  · have h' : ¬(List.dropWhile isSpaceChar ys.reverse).reverse = [] := by
      rw [List.isEmpty_iff] at h
      simp [h]
    simp [h, h', List.reverse_append]

theorem containsSub_of_append_right (nd : Str) : ∀ a : Str, containsSub nd (a ++ nd) = true := by
  intro a
  induction a with
  | nil =>
    cases nd with
    | nil => rfl
    | cons c t =>
      show containsSub (c :: t) (c :: t) = true
      have : (c :: t).isPrefixOf (c :: t) = true := by
        simp [List.isPrefixOf_iff_prefix]
      simp [containsSub, this]
  | cons c a' ih => simp [containsSub, ih]

/-! ### Behaviour of `processLine` on the three protocol line shapes -/

theorem processLine_sysEnd (s : ClientState) (n : Str) (hn : isName n) :
    processLine s (sysEndTag ++ n) =
      if s.currentTarget = some n then
        match s.targetStack.getLast? with
        | some back =>
          ({ s with currentTarget := some back, targetStack := s.targetStack.dropLast },
            [Output.endedBackTo n back])
        | none => ({ s with currentTarget := none }, [Output.endedClosed n])
      else (s, [Output.endedInfo n]) := by
  obtain ⟨hne, hch⟩ := hn
  have hA : pyStrip (sysEndTag ++ n) = sysEndTag ++ n :=
    pyStrip_eq_self rfl (getLast?_all_append_of_token hne (fun c hc => (hch c hc).1))
  have hB : ¬(sysEndTag ++ n = []) := by simp [sysEndTag]
  have hC : fromTag.isPrefixOf (sysEndTag ++ n) = false :=
    not_isPrefixOf_of_head_ne (by decide)
  have hD : sysEndTag.isPrefixOf (sysEndTag ++ n) = true := isPrefixOf_self_append _ _
  have hE : (sysEndTag ++ n).drop 8 = n := List.drop_left' rfl
  have hF : pyStrip n = n := pyStrip_token hne (fun c hc => (hch c hc).1)
  simp only [processLine, hA, hC, hD, hE, hF, if_neg hB, Bool.false_eq_true, if_false,
    if_true, List.nil_append]

theorem processLine_errUnavail (s : ClientState) (n : Str) (hn : isName n) (tail : Str)
    (htail : tail = notFoundTag ∨ tail = discTag) :
    processLine s (errUserTag ++ n ++ tail) =
      if s.currentTarget = some n then
        match s.targetStack.getLast? with
        | some back =>
          ({ s with currentTarget := some back, targetStack := s.targetStack.dropLast },
            [Output.unavailBackTo n back, Output.raw (errUserTag ++ n ++ tail)])
        | none =>
          ({ s with currentTarget := none },
            [Output.unavailClosed n, Output.raw (errUserTag ++ n ++ tail)])
      else (s, [Output.raw (errUserTag ++ n ++ tail)]) := by
  obtain ⟨hne, hch⟩ := hn
  have hq : ∀ c ∈ n, ¬c = '\'' := fun c hc => (hch c hc).2
  have hgl : (errUserTag ++ n ++ tail).getLast?.all (fun c => !isSpaceChar c) = true := by
    rcases htail with rfl | rfl <;>
      simp [List.getLast?_append, notFoundTag, discTag, isSpaceChar]
  have hA : pyStrip (errUserTag ++ n ++ tail) = errUserTag ++ n ++ tail := by
    refine pyStrip_eq_self ?_ hgl
    rcases htail with rfl | rfl <;> rfl
  have hB : ¬(errUserTag ++ n ++ tail = []) := by simp [errUserTag]
  have hC : fromTag.isPrefixOf (errUserTag ++ n ++ tail) = false :=
    not_isPrefixOf_of_head_ne (by decide)
  have hC2 : sysEndTag.isPrefixOf (errUserTag ++ n ++ tail) = false :=
    not_isPrefixOf_of_head_ne (by decide)
  have hD : errUserTag.isPrefixOf (errUserTag ++ n ++ tail) = true := by
    rw [List.append_assoc]
    exact isPrefixOf_self_append _ _
  have hE : (containsSub notFoundTag (errUserTag ++ n ++ tail) ||
      containsSub discTag (errUserTag ++ n ++ tail)) = true := by
    rcases htail with rfl | rfl
    · rw [containsSub_of_append_right notFoundTag (errUserTag ++ n), Bool.true_or]
    · rw [containsSub_of_append_right discTag (errUserTag ++ n), Bool.or_true]
  have hP : part1 '\'' (errUserTag ++ n ++ tail) = some n := by
    rcases htail with rfl | rfl
    · exact @part1_between '\'' ['E', 'R', 'R', ' ', 'U', 's', 'e', 'r', ' ']
        n [' ', 'n', 'o', 't', ' ', 'f', 'o', 'u', 'n', 'd'] (by decide) hq
    · exact @part1_between '\'' ['E', 'R', 'R', ' ', 'U', 's', 'e', 'r', ' ']
        n [' ', 'd', 'i', 's', 'c', 'o', 'n', 'n', 'e', 'c', 't', 'e', 'd']
        (by decide) hq
  simp only [processLine, hA, hB, hC, hC2, hD, hE, hP, if_neg hB, Bool.false_eq_true,
    if_false, Bool.and_true, if_true, List.nil_append, ne_eq, hne, not_false_iff]

/-! ### Claim theorems -/

/-- **C1** Target-restore rule: for every server line `SYS END <name>`,
`ERR User '<name>' not found`, or `ERR User '<name>' disconnected` processed by
the receiver, if `<name>` equals the current conversation target then the top
of `targetHistory` (if non-empty) is popped and installed as the new current
target, otherwise the current target is cleared to `none`; if `<name>` differs
from the current target, neither `currentTarget` nor `targetHistory` changes
(the whole state is untouched). -/
theorem recv_target_restore_rule (s : ClientState) (n line : Str) (hn : isName n)
    (hline : line = sysEndTag ++ n ∨ line = errUserTag ++ n ++ notFoundTag ∨
      line = errUserTag ++ n ++ discTag) :
    (processLine s line).1 =
      if s.currentTarget = some n then
        match s.targetStack.getLast? with
        | some back =>
          { s with currentTarget := some back, targetStack := s.targetStack.dropLast }
        | none => { s with currentTarget := none }
      else s := by
  have key : processLine s line =
      if s.currentTarget = some n then
        match s.targetStack.getLast? with
        | some back =>
          ({ s with currentTarget := some back, targetStack := s.targetStack.dropLast },
            (processLine s line).2)
        | none => ({ s with currentTarget := none }, (processLine s line).2)
      else (s, (processLine s line).2) := by
    rcases hline with rfl | rfl | rfl
    · rw [processLine_sysEnd s n hn]
      by_cases h : s.currentTarget = some n <;>
        simp only [h, if_true, if_false, if_pos, if_neg, not_false_iff] <;>
        cases s.targetStack.getLast? <;> simp
    · rw [processLine_errUnavail s n hn notFoundTag (Or.inl rfl)]
      by_cases h : s.currentTarget = some n <;>
        simp only [h, if_true, if_false, if_pos, if_neg, not_false_iff] <;>
        cases s.targetStack.getLast? <;> simp
    · rw [processLine_errUnavail s n hn discTag (Or.inr rfl)]
      by_cases h : s.currentTarget = some n <;>
        simp only [h, if_true, if_false, if_pos, if_neg, not_false_iff] <;>
        cases s.targetStack.getLast? <;> simp
  rw [key]
  by_cases h : s.currentTarget = some n
  · simp only [h, if_true]
    cases s.targetStack.getLast? <;> rfl
  · simp [h]

/-- Witness for **C1**: with current target `"A"` and history `["B","C"]`
(most recent at the back of the Python list), receiving
`ERR User 'A' not found` makes the current target `"C"` and leaves history
`["B"]`. -/
theorem recv_target_restore_rule_witness :
    (processLine
        { connected := true, currentTarget := some ['A'],
          targetStack := [['B'], ['C']], name := [] }
        ("ERR User 'A' not found".toList)).1 =
      { connected := true, currentTarget := some ['C'],
        targetStack := [['B']], name := [] } := by
  rw [recv_target_restore_rule
    { connected := true, currentTarget := some ['A'],
      targetStack := [['B'], ['C']], name := [] }
    ['A'] ("ERR User 'A' not found".toList) (by decide)
    (Or.inr (Or.inl (by decide)))]
  decide

/-- **C2** counterexample: the round-trip claim fails as stated when the
opened target X already equals the current target.  With current target `"A"`
and history `["B"]`, `open_chat("A")` is a state no-op (nothing is pushed),
but `end_current_chat` still pops the history, so the restored target is
`"B"`, not the pre-open target `"A"`, and the history shrinks. -/
theorem open_then_end_roundtrip_counterexample :
    (endCurrentChat
        (openChat
          { connected := true, currentTarget := some ['A'],
            targetStack := [['B']], name := [] } ['A'])
        true).state.currentTarget ≠ some ['A'] ∧
    (endCurrentChat
        (openChat
          { connected := true, currentTarget := some ['A'],
            targetStack := [['B']], name := [] } ['A'])
        true).state.targetStack ≠ [['B']] := by
  decide

/-- **C2** (amended): for every session state satisfying the session
invariants (a target-less session has empty history, and the current target is
never the empty string) and every target X that is non-empty after trimming
and *differs from the current target*, opening conversation with X and then
immediately ending it (with the END send succeeding) restores the previous
current target (or `none`) and leaves `targetHistory` as it was. -/
theorem open_then_end_roundtrip (s : ClientState) (X : Str)
    (hX : ¬pyStrip X = []) (hdiff : ¬s.currentTarget = some (pyStrip X))
    (hinv0 : s.currentTarget = none → s.targetStack = [])
    (hinv1 : ¬s.currentTarget = some []) :
    (endCurrentChat (openChat s X) true).state.currentTarget = s.currentTarget ∧
    (endCurrentChat (openChat s X) true).state.targetStack = s.targetStack ∧
    (endCurrentChat (openChat s X) true).ret = true := by
  cases hc : s.currentTarget with
  | none =>
    have hstack := hinv0 hc
    simp [openChat, endCurrentChat, safeSend, popOrClear, hc, hX, hstack]
  | some prev =>
    have hprev : ¬prev = [] := fun h => hinv1 (by rw [hc, h])
    have hpX : ¬prev = pyStrip X := fun h => hdiff (by rw [hc, h])
    simp [openChat, endCurrentChat, safeSend, popOrClear, hc, hX, hprev, hpX,
      List.getLast?_concat, List.dropLast_concat]

/-- Witness for **C2** (amended): with current target `"A"`, history `["B"]`,
opening `"C"` and immediately ending restores target `"A"` and history
`["B"]`. -/
theorem open_then_end_roundtrip_witness :
    (endCurrentChat
        (openChat
          { connected := true, currentTarget := some ['A'],
            targetStack := [['B']], name := [] } ['C'])
        true).state.currentTarget = some ['A'] ∧
    (endCurrentChat
        (openChat
          { connected := true, currentTarget := some ['A'],
            targetStack := [['B']], name := [] } ['C'])
        true).state.targetStack = [['B']] ∧
    (endCurrentChat
        (openChat
          { connected := true, currentTarget := some ['A'],
            targetStack := [['B']], name := [] } ['C'])
        true).ret = true :=
  open_then_end_roundtrip
    { connected := true, currentTarget := some ['A'],
      targetStack := [['B']], name := [] }
    ['C'] (by decide) (by decide) (by decide) (by decide)

/-- **C3** Target-switch rule: for every call to `open_chat` with a target
that is non-empty after trimming, (a) if a target is already active (truthy)
and differs from the new one, it is pushed onto `targetHistory` before the new
one is installed; (b) if the new target equals the current one, the state is
unchanged; (c) whenever `targetHistory` grows, the pushed entry differs from
the `currentTarget` installed at that moment. -/
theorem open_chat_switch_rule (s : ClientState) (t0 : Str) (ht : ¬pyStrip t0 = []) :
    (∀ prev, s.currentTarget = some prev → ¬prev = [] → ¬prev = pyStrip t0 →
      openChat s t0 =
        { s with currentTarget := some (pyStrip t0),
                 targetStack := s.targetStack ++ [prev] }) ∧
    (s.currentTarget = some (pyStrip t0) → openChat s t0 = s) ∧
    (¬(openChat s t0).targetStack = s.targetStack →
      ∃ e, (openChat s t0).targetStack = s.targetStack ++ [e] ∧
        ¬(openChat s t0).currentTarget = some e) := by
  refine ⟨?_, ?_, ?_⟩
  · intro prev hc hne hneX
    simp [openChat, hc, ht, hne, hneX]
  · intro hc
    rw [show s = { s with currentTarget := some (pyStrip t0) } by rw [← hc]]
    simp [openChat, ht]
  · intro hgrow
    cases hc : s.currentTarget with
    | none => exact absurd (by simp [openChat, hc, ht]) hgrow
    | some prev =>
      by_cases hne : prev = []
      · exact absurd (by simp [openChat, hc, ht, hne]) hgrow
      · by_cases hneX : prev = pyStrip t0
        · exact absurd (by simp [openChat, hc, ht, hneX]) hgrow
        · refine ⟨prev, by simp [openChat, hc, ht, hne, hneX], ?_⟩
          simp [openChat, hc, ht, hne, hneX]
          intro h
          exact hneX h.symm

/-- Witness for **C3**: opening `"B"` while chatting with `"A"` pushes `"A"`
and installs `"B"`. -/
theorem open_chat_switch_rule_witness :
    openChat
        { connected := true, currentTarget := some ['A'],
          targetStack := [], name := [] } ['B'] =
      { connected := true, currentTarget := some ['B'],
        targetStack := [['A']], name := [] } := by
  rw [(open_chat_switch_rule
      { connected := true, currentTarget := some ['A'],
        targetStack := [], name := [] }
      ['B'] (by decide)).1 ['A'] rfl (by decide) (by decide)]
  decide

theorem handshake_classified (s : ClientState) (name0 raw : Str)
    (hname : ¬pyStrip name0 = []) :
    (containsSub serverFullTag (pyStrip raw) = true →
      handshake s name0 true (some raw) =
        (close s, HandshakeResult.exit, some (helloWire (pyStrip name0)))) ∧
    (containsSub serverFullTag (pyStrip raw) = false →
      errTag.isPrefixOf (pyStrip raw) = true →
      handshake s name0 true (some raw) =
        (s, HandshakeResult.retry, some (helloWire (pyStrip name0)))) ∧
    (containsSub serverFullTag (pyStrip raw) = false →
      errTag.isPrefixOf (pyStrip raw) = false →
      okTag.isPrefixOf (pyStrip raw) = true →
      handshake s name0 true (some raw) =
        ({ s with name := pyStrip name0 }, HandshakeResult.ok,
          some (helloWire (pyStrip name0)))) ∧
    (containsSub serverFullTag (pyStrip raw) = false →
      errTag.isPrefixOf (pyStrip raw) = false →
      okTag.isPrefixOf (pyStrip raw) = false →
      handshake s name0 true (some raw) =
        (s, HandshakeResult.retry, some (helloWire (pyStrip name0)))) := by
  refine ⟨fun h1 => ?_, fun h1 h2 => ?_, fun h1 h2 h3 => ?_, fun h1 h2 h3 => ?_⟩
  · simp [handshake, hname, h1]
  · simp [handshake, hname, h1, h2]
  · simp [handshake, hname, h1, h2, h3]
  · simp [handshake, hname, h1, h2, h3]

/-- **C4** Handshake reply classification: for every reply line received after
sending the registration line (non-empty candidate name, send succeeded), a
server-full indication closes the transport and returns the fatal `EXIT`
outcome; any other `ERR` rejection returns `RETRY`; an `OK` acceptance records
the candidate name as the session's name and returns `OK`; and any
unrecognized reply returns `RETRY` (the classifier is a total function, so it
never crashes). -/
theorem handshake_reply_classification (s : ClientState) (name0 raw : Str)
    (hname : ¬pyStrip name0 = []) :
    (containsSub serverFullTag (pyStrip raw) = true →
      handshake s name0 true (some raw) =
        (close s, HandshakeResult.exit, some (helloWire (pyStrip name0)))) ∧
    (containsSub serverFullTag (pyStrip raw) = false →
      errTag.isPrefixOf (pyStrip raw) = true →
      handshake s name0 true (some raw) =
        (s, HandshakeResult.retry, some (helloWire (pyStrip name0)))) ∧
    (containsSub serverFullTag (pyStrip raw) = false →
      errTag.isPrefixOf (pyStrip raw) = false →
      okTag.isPrefixOf (pyStrip raw) = true →
      handshake s name0 true (some raw) =
        ({ s with name := pyStrip name0 }, HandshakeResult.ok,
          some (helloWire (pyStrip name0)))) ∧
    (containsSub serverFullTag (pyStrip raw) = false →
      errTag.isPrefixOf (pyStrip raw) = false →
      okTag.isPrefixOf (pyStrip raw) = false →
      handshake s name0 true (some raw) =
        (s, HandshakeResult.retry, some (helloWire (pyStrip name0)))) :=
  handshake_classified s name0 raw hname

/-- Witness for **C4**: an `OK` reply records the name and accepts. -/
theorem handshake_reply_classification_witness :
    handshake initState " bob ".toList true (some "OK Welcome bob".toList) =
      ({ initState with name := "bob".toList }, HandshakeResult.ok,
        some "HELLO bob\n".toList) := by
  have h := (handshake_reply_classification initState " bob ".toList
    "OK Welcome bob".toList (by decide)).2.2.1 (by decide) (by decide) (by decide)
  rw [h]
  decide

/-- **C5** Every text handed to the transport by the client's send operations
ends in a newline: `send_one_off` appends the terminator exactly when it is
absent, and the handshake, targeted-send and end-chat lines carry it
literally. -/
theorem wire_newline_terminated (raw name target message : Str) :
    (oneOffWire raw).getLast? = some '\n' ∧
    (raw.getLast? = some '\n' → oneOffWire raw = raw) ∧
    (¬raw.getLast? = some '\n' → oneOffWire raw = raw ++ ['\n']) ∧
    (helloWire name).getLast? = some '\n' ∧
    (endWire target).getLast? = some '\n' ∧
    (toWire target message).getLast? = some '\n' := by
  refine ⟨?_, fun h => ?_, fun h => ?_, ?_, ?_, ?_⟩
  · unfold oneOffWire
    by_cases h : raw.getLast? = some '\n'
    · simp [h]
    · simp [h, List.getLast?_concat]
  · simp [oneOffWire, h]
  · simp [oneOffWire, h]
  · exact List.getLast?_concat _
  · exact List.getLast?_concat _
  · exact List.getLast?_concat _

/-- Witness for **C5**: a one-off command without terminator gets one
appended. -/
theorem wire_newline_terminated_witness :
    oneOffWire "TO C yo".toList = "TO C yo".toList ++ ['\n'] :=
  (wire_newline_terminated "TO C yo".toList [] [] []).2.2.1 (by decide)

theorem handshake_empty_name (s : ClientState) (name0 : Str) (sendOk : Bool)
    (recv : Option Str) (h : pyStrip name0 = []) :
    handshake s name0 sendOk recv = (s, HandshakeResult.retry, none) := by
  simp [handshake, h]

/-- **C8** For every candidate name that is empty after trimming whitespace,
the handshake resolves locally to `RETRY` and nothing is handed to the
transport, whatever the send/receive outcomes would have been. -/
theorem handshake_empty_name_local (s : ClientState) (name0 : Str) (sendOk : Bool)
    (recv : Option Str) (h : pyStrip name0 = []) :
    handshake s name0 sendOk recv = (s, HandshakeResult.retry, none) :=
  handshake_empty_name s name0 sendOk recv h

/-- Witness for **C8**: the all-whitespace name `" "` is rejected locally. -/
theorem handshake_empty_name_local_witness :
    handshake initState [' '] true (some "OK".toList) =
      (initState, HandshakeResult.retry, none) :=
  handshake_empty_name_local initState [' '] true (some "OK".toList) (by decide)

theorem processLine_from (s : ClientState) (sender text : Str) (hs : isName sender) :
    processLine s (fromTag ++ sender ++ (' ' :: text)) =
      (s, [Output.newMessageFrom sender,
        Output.raw (pyStrip (fromTag ++ sender ++ (' ' :: text)))]) := by
  obtain ⟨hne, hch⟩ := hs
  have hnsp : ∀ c ∈ sender, isSpaceChar c = false := fun c hc => (hch c hc).1
  have hnspP : ∀ c ∈ sender, ¬c = ' ' := by
    intro c hc h
    have h2 := hnsp c hc
    rw [h] at h2
    simp [isSpaceChar] at h2
  have hsr : stripRight (fromTag ++ sender) = fromTag ++ sender :=
    stripRight_eq_self (getLast?_all_append_of_token hne hnsp)
  have hdw : List.dropWhile isSpaceChar (fromTag ++ sender ++ (' ' :: text)) =
      fromTag ++ sender ++ (' ' :: text) := dropWhile_isSpace_cons (by decide)
  have hL : pyStrip (fromTag ++ sender ++ (' ' :: text)) =
      if stripRight (' ' :: text) = [] then fromTag ++ sender
      else (fromTag ++ sender) ++ stripRight (' ' :: text) := by
    unfold pyStrip
    rw [hdw, stripRight_append (fromTag ++ sender) (' ' :: text)]
    by_cases hB : stripRight (' ' :: text) = [] <;> simp [hB, hsr]
  simp only [processLine]
  rw [hL]
  by_cases hB : stripRight (' ' :: text) = []
  · rw [if_pos hB]
    have hne' : ¬(fromTag ++ sender = []) := by simp [fromTag]
    have hf : fromTag.isPrefixOf (fromTag ++ sender) = true := isPrefixOf_self_append _ _
    have hsys : sysEndTag.isPrefixOf (fromTag ++ sender) = false :=
      not_isPrefixOf_of_head_ne (by decide)
    have herr : errUserTag.isPrefixOf (fromTag ++ sender) = false :=
      not_isPrefixOf_of_head_ne (by decide)
    have hp1 : part1 ' ' (fromTag ++ sender) = some sender :=
      @part1_after ' ' ['F', 'R', 'O', 'M'] sender (by decide) hnspP
    have hfs : fromSender (fromTag ++ sender) = sender := by
      simp [fromSender, hp1, pyStrip_token hne hnsp]
    simp [hne', hf, hsys, herr, hfs, hne]
  · rw [if_neg hB]
    have hsp : stripRight (' ' :: text) = ' ' :: stripRight text := by
      have h5 := stripRight_append [' '] text
      by_cases hT : stripRight text = []
      · rw [List.singleton_append, hT] at h5
        exact absurd (by rw [h5]; decide) hB
      · rw [List.singleton_append] at h5
        simpa [hT] using h5
    rw [hsp]
    have hne' : ¬(fromTag ++ (sender ++ ' ' :: stripRight text) = []) := by
      simp [fromTag]
    have hfP : fromTag <+: fromTag ++ (sender ++ ' ' :: stripRight text) :=
      List.prefix_append _ _
    have hsysP : ¬sysEndTag <+: fromTag ++ (sender ++ ' ' :: stripRight text) := by
      have hb2 : sysEndTag.isPrefixOf (fromTag ++ (sender ++ ' ' :: stripRight text)) =
          false := not_isPrefixOf_of_head_ne (by decide)
      intro hp
      have hb := List.isPrefixOf_iff_prefix.mpr hp
      rw [hb2] at hb
      simp at hb
    have herrP : ¬errUserTag <+: fromTag ++ (sender ++ ' ' :: stripRight text) := by
      have hb2 : errUserTag.isPrefixOf (fromTag ++ (sender ++ ' ' :: stripRight text)) =
          false := not_isPrefixOf_of_head_ne (by decide)
      intro hp
      have hb := List.isPrefixOf_iff_prefix.mpr hp
      rw [hb2] at hb
      simp at hb
    have hp1 : part1 ' ' (fromTag ++ (sender ++ ' ' :: stripRight text)) =
        some sender :=
      @part1_between ' ' ['F', 'R', 'O', 'M'] sender (stripRight text)
        (by decide) hnspP
    have hfs : fromSender (fromTag ++ (sender ++ ' ' :: stripRight text)) = sender := by
      simp [fromSender, hp1, pyStrip_token hne hnsp]
    simp [hne', hfP, hsysP, herrP, hp1, hfs, hne]

theorem recvStep_data_eq (st : ClientState) (b bytes : Str) :
    recvStep st b (RecvEvent.dataChunk bytes) =
      ((processLines st (extractLines (b ++ bytes)).1).1,
        (extractLines (b ++ bytes)).2,
        (processLines st (extractLines (b ++ bytes)).1).2, true) := rfl

theorem processLines_singleton (st : ClientState) (l : Str) :
    processLines st [l] = processLine st l := by
  simp [processLines]

/-- **C6** For every inbound line of the form `FROM <sender> <text>`, the
receiver reports the message and never changes the session state (in
particular neither `currentTarget` nor `targetHistory`); and processing the
chunks `"FROM A hi\n"` then `"FROM B yo\n"` reports both messages and leaves
the state exactly as it was. -/
theorem recv_from_reports_no_switch (s : ClientState) (sender text : Str)
    (hs : isName sender) :
    (processLine s (fromTag ++ sender ++ (' ' :: text))).1 = s ∧
    Output.newMessageFrom sender ∈
      (processLine s (fromTag ++ sender ++ (' ' :: text))).2 ∧
    (recvStep s [] (RecvEvent.dataChunk chunkA)).1 = s ∧
    (recvStep s [] (RecvEvent.dataChunk chunkA)).2.2.1 =
      [Output.newMessageFrom ['A'], Output.raw lineA] ∧
    (recvStep (recvStep s [] (RecvEvent.dataChunk chunkA)).1
        (recvStep s [] (RecvEvent.dataChunk chunkA)).2.1
        (RecvEvent.dataChunk chunkB)).1 = s ∧
    (recvStep (recvStep s [] (RecvEvent.dataChunk chunkA)).1
        (recvStep s [] (RecvEvent.dataChunk chunkA)).2.1
        (RecvEvent.dataChunk chunkB)).2.2.1 =
      [Output.newMessageFrom ['B'], Output.raw lineB] := by
  have h2A : processLine s lineA =
      (s, [Output.newMessageFrom ['A'], Output.raw lineA]) := by
    have e : lineA = fromTag ++ ['A'] ++ (' ' :: ['h', 'i']) := by decide
    rw [e, processLine_from s ['A'] ['h', 'i'] (by decide)]
    rw [show pyStrip (fromTag ++ ['A'] ++ (' ' :: ['h', 'i'])) =
      fromTag ++ ['A'] ++ (' ' :: ['h', 'i']) from by decide]
  have h2B : processLine s lineB =
      (s, [Output.newMessageFrom ['B'], Output.raw lineB]) := by
    have e : lineB = fromTag ++ ['B'] ++ (' ' :: ['y', 'o']) := by decide
    rw [e, processLine_from s ['B'] ['y', 'o'] (by decide)]
    rw [show pyStrip (fromTag ++ ['B'] ++ (' ' :: ['y', 'o'])) =
      fromTag ++ ['B'] ++ (' ' :: ['y', 'o']) from by decide]
  have hA : recvStep s [] (RecvEvent.dataChunk chunkA) =
      (s, [], [Output.newMessageFrom ['A'], Output.raw lineA], true) := by
    rw [recvStep_data_eq,
      show extractLines (([] : Str) ++ chunkA) = ([lineA], ([] : Str)) from by decide]
    dsimp only
    rw [processLines_singleton, h2A]
  have hB : recvStep s [] (RecvEvent.dataChunk chunkB) =
      (s, [], [Output.newMessageFrom ['B'], Output.raw lineB], true) := by
    rw [recvStep_data_eq,
      show extractLines (([] : Str) ++ chunkB) = ([lineB], ([] : Str)) from by decide]
    dsimp only
    rw [processLines_singleton, h2B]
  refine ⟨?_, ?_, ?_, ?_, ?_, ?_⟩
  · rw [processLine_from s sender text hs]
  · rw [processLine_from s sender text hs]
    simp
  · rw [hA]
  · rw [hA]
  · rw [hA]
    rw [show ((s, ([] : Str),
        [Output.newMessageFrom ['A'], Output.raw lineA], true) :
        ClientState × Str × List Output × Bool).1 = s from rfl]
    rw [show ((s, ([] : Str),
        [Output.newMessageFrom ['A'], Output.raw lineA], true) :
        ClientState × Str × List Output × Bool).2.1 = ([] : Str) from rfl]
    rw [hB]
  · rw [hA]
    rw [show ((s, ([] : Str),
        [Output.newMessageFrom ['A'], Output.raw lineA], true) :
        ClientState × Str × List Output × Bool).1 = s from rfl]
    rw [show ((s, ([] : Str),
        [Output.newMessageFrom ['A'], Output.raw lineA], true) :
        ClientState × Str × List Output × Bool).2.1 = ([] : Str) from rfl]
    rw [hB]

/-- Witness for **C6**: a concrete `FROM D hello` line leaves a concrete
session state untouched. -/
theorem recv_from_reports_no_switch_witness :
    (processLine
        { connected := true, currentTarget := some ['A'],
          targetStack := [['B']], name := [] }
        (fromTag ++ ['D'] ++ (' ' :: "hello".toList))).1 =
      { connected := true, currentTarget := some ['A'],
        targetStack := [['B']], name := [] } :=
  (recv_from_reports_no_switch
    { connected := true, currentTarget := some ['A'],
      targetStack := [['B']], name := [] }
    ['D'] ("hello".toList) (by decide)).1

/-! ### Connectivity preservation of the receiver -/

theorem processLine_connected (s : ClientState) (l : Str) :
    (processLine s l).1.connected = s.connected := by
  simp only [processLine]
  repeat' split
  all_goals rfl

theorem processLines_connected (s : ClientState) (ls : List Str) :
    (processLines s ls).1.connected = s.connected := by
  induction ls generalizing s with
  | nil => rfl
  | cons l ls ih =>
    show (processLines (processLine s l).1 ls).1.connected = s.connected
    rw [ih, processLine_connected]

theorem popOrClear_connected (s : ClientState) :
    (popOrClear s).1.connected = s.connected := by
  unfold popOrClear
  split
  all_goals rfl

/-- **C7** Dead-session invariant: whenever a transition makes the session's
alive flag false (receive error, end-of-stream, failed send during any send
operation, fatal handshake outcome, or close), the resulting state also
carries `currentTarget = none` and an empty `targetHistory`; operations that
leave the session alive are unaffected, so starting from a live session a
not-alive result always has no conversational state. -/
theorem dead_session_no_conversational_state (s : ClientState)
    (hs : s.connected = true) :
    ((close s).connected = false ∧ (close s).currentTarget = none ∧
      (close s).targetStack = []) ∧
    (∀ buffer ev, (recvStep s buffer ev).1.connected = false →
      (recvStep s buffer ev).1.currentTarget = none ∧
      (recvStep s buffer ev).1.targetStack = []) ∧
    (∀ text ok, (safeSend s text ok).state.connected = false →
      (safeSend s text ok).state.currentTarget = none ∧
      (safeSend s text ok).state.targetStack = []) ∧
    (∀ msg ok, (sendToCurrent s msg ok).state.connected = false →
      (sendToCurrent s msg ok).state.currentTarget = none ∧
      (sendToCurrent s msg ok).state.targetStack = []) ∧
    (∀ raw ok, (sendOneOff s raw ok).state.connected = false →
      (sendOneOff s raw ok).state.currentTarget = none ∧
      (sendOneOff s raw ok).state.targetStack = []) ∧
    (∀ ok, (endCurrentChat s ok).state.connected = false →
      (endCurrentChat s ok).state.currentTarget = none ∧
      (endCurrentChat s ok).state.targetStack = []) ∧
    (∀ name0 sendOk recv, (handshake s name0 sendOk recv).1.connected = false →
      (handshake s name0 sendOk recv).1.currentTarget = none ∧
      (handshake s name0 sendOk recv).1.targetStack = []) ∧
    (∀ t0, (openChat s t0).connected = false →
      (openChat s t0).currentTarget = none ∧ (openChat s t0).targetStack = []) := by
  refine ⟨⟨rfl, rfl, rfl⟩, ?_, ?_, ?_, ?_, ?_, ?_, ?_⟩
  · intro buffer ev h
    cases ev with
    | err => exact ⟨rfl, rfl⟩
    | eof => exact ⟨rfl, rfl⟩
    | dataChunk bytes =>
      rw [recvStep_data_eq] at h
      rw [show ((processLines s (extractLines (buffer ++ bytes)).1).1,
          (extractLines (buffer ++ bytes)).2,
          (processLines s (extractLines (buffer ++ bytes)).1).2, true).1 =
        (processLines s (extractLines (buffer ++ bytes)).1).1 from rfl] at h
      rw [processLines_connected, hs] at h
      simp at h
  · intro text ok h
    cases ok with
    | true => rw [show (safeSend s text true).state = s from rfl, hs] at h; simp at h
    | false => exact ⟨rfl, rfl⟩
  · intro msg ok h
    cases hc : s.currentTarget with
    | none =>
      rw [show sendToCurrent s msg ok =
        { state := s, ret := true, wire := none } from by simp [sendToCurrent, hc]] at h
      rw [hs] at h
      simp at h
    | some target =>
      by_cases ht : target = []
      · rw [show sendToCurrent s msg ok =
          { state := s, ret := true, wire := none } from by
            simp [sendToCurrent, hc, ht]] at h
        rw [hs] at h
        simp at h
      · cases ok with
        | true =>
          rw [show sendToCurrent s msg true =
            safeSend s (toWire target msg) true from by simp [sendToCurrent, hc, ht]] at h
          rw [show (safeSend s (toWire target msg) true).state = s from rfl, hs] at h
          simp at h
        | false =>
          rw [show sendToCurrent s msg false =
            safeSend s (toWire target msg) false from by simp [sendToCurrent, hc, ht]]
          exact ⟨rfl, rfl⟩
  · intro raw ok h
    cases ok with
    | true =>
      rw [show (sendOneOff s raw true).state = s from rfl, hs] at h
      simp at h
    | false => exact ⟨rfl, rfl⟩
  · intro ok h
    cases hc : s.currentTarget with
    | none =>
      rw [show endCurrentChat s ok = { state := s, ret := true, wire := none } from by
        simp [endCurrentChat, hc]] at h
      rw [hs] at h
      simp at h
    | some target =>
      by_cases ht : target = []
      · rw [show endCurrentChat s ok = { state := s, ret := true, wire := none } from by
          simp [endCurrentChat, hc, ht]] at h
        rw [hs] at h
        simp at h
      · cases ok with
        | true =>
          rw [show endCurrentChat s true =
            { state := (popOrClear s).1, ret := true, wire := some (endWire target) }
            from by simp [endCurrentChat, safeSend, hc, ht]] at h
          have h' : (popOrClear s).1.connected = false := h
          rw [popOrClear_connected, hs] at h'
          simp at h'
        | false =>
          rw [show endCurrentChat s false =
            { state := setDisconnected s, ret := false, wire := some (endWire target) }
            from by simp [endCurrentChat, safeSend, hc, ht]]
          exact ⟨rfl, rfl⟩
  · intro name0 sendOk recv h
    by_cases hn : pyStrip name0 = []
    · rw [handshake_empty_name s name0 sendOk recv hn] at h
      rw [hs] at h
      simp at h
    · cases sendOk with
      | false =>
        rw [show handshake s name0 false recv =
          (setDisconnected s, HandshakeResult.exit, some (helloWire (pyStrip name0)))
          from by simp [handshake, hn]] at h ⊢
        exact ⟨rfl, rfl⟩
      | true =>
        cases recv with
        | none =>
          rw [show handshake s name0 true none =
            (setDisconnected s, HandshakeResult.exit, some (helloWire (pyStrip name0)))
            from by simp [handshake, hn]] at h ⊢
          exact ⟨rfl, rfl⟩
        | some raw =>
          by_cases h1 : containsSub serverFullTag (pyStrip raw) = true
          · rw [(handshake_classified s name0 raw hn).1 h1] at h ⊢
            exact ⟨rfl, rfl⟩
          · have h1' : containsSub serverFullTag (pyStrip raw) = false :=
              Bool.eq_false_iff.mpr h1
            by_cases h2 : errTag.isPrefixOf (pyStrip raw) = true
            · rw [(handshake_classified s name0 raw hn).2.1 h1' h2] at h
              rw [hs] at h
              simp at h
            · have h2' : errTag.isPrefixOf (pyStrip raw) = false :=
                Bool.eq_false_iff.mpr h2
              by_cases h3 : okTag.isPrefixOf (pyStrip raw) = true
              · rw [(handshake_classified s name0 raw hn).2.2.1 h1' h2' h3]
                  at h
                have h' : s.connected = false := h
                rw [hs] at h'
                simp at h'
              · have h3' : okTag.isPrefixOf (pyStrip raw) = false :=
                  Bool.eq_false_iff.mpr h3
                rw [(handshake_classified s name0 raw hn).2.2.2 h1' h2' h3']
                  at h
                rw [hs] at h
                simp at h
  · intro t0 h
    by_cases ht : pyStrip t0 = []
    · rw [show openChat s t0 = s from by simp [openChat, ht]] at h
      rw [hs] at h
      simp at h
    · have : (openChat s t0).connected = s.connected := by
        unfold openChat
        rw [if_neg ht]
      rw [this, hs] at h
      simp at h

/-- Witness for **C7**: a failed send on a live session with an active target
clears the conversational state. -/
theorem dead_session_no_conversational_state_witness :
    (sendToCurrent
        { connected := true, currentTarget := some ['A'],
          targetStack := [['B']], name := [] }
        "hi".toList false).state.currentTarget = none ∧
    (sendToCurrent
        { connected := true, currentTarget := some ['A'],
          targetStack := [['B']], name := [] }
        "hi".toList false).state.targetStack = [] :=
  (dead_session_no_conversational_state
    { connected := true, currentTarget := some ['A'],
      targetStack := [['B']], name := [] }
    rfl).2.2.2.1 ("hi".toList) false (by decide)

/-- **C9** The unavailable-user handling matches only lines that begin with
`ERR User '` and contain `' not found` or `' disconnected`.  Every other
`ERR`-prefixed line (wrong prefix, missing suffix, missing closing quote) is
treated as a generic server line: it is reported verbatim and the state is
untouched.  The handler is a total function (the quote extraction is guarded),
so no such line can crash the receiver. -/
theorem err_malformed_is_generic (s : ClientState) (rawLine : Str)
    (hpre : errTag.isPrefixOf (pyStrip rawLine) = true)
    (hmal : ¬(errUserTag.isPrefixOf (pyStrip rawLine) = true ∧
      (containsSub notFoundTag (pyStrip rawLine) = true ∨
        containsSub discTag (pyStrip rawLine) = true))) :
    processLine s rawLine = (s, [Output.raw (pyStrip rawLine)]) := by
  cases hL : pyStrip rawLine with
  | nil =>
    rw [hL] at hpre
    simp [errTag] at hpre
  | cons c t =>
    rw [hL] at hpre
    have hc : c = 'E' := by
      rw [show errTag = 'E' :: ['R', 'R'] from rfl, List.isPrefixOf_cons₂] at hpre
      have := (Bool.and_eq_true _ _).mp hpre
      exact (beq_iff_eq.mp this.1).symm
    subst hc
    have hfrom : fromTag.isPrefixOf (pyStrip rawLine) = false := by
      rw [hL]
      exact not_isPrefixOf_of_head_ne (by decide)
    have hsys : sysEndTag.isPrefixOf (pyStrip rawLine) = false := by
      rw [hL]
      exact not_isPrefixOf_of_head_ne (by decide)
    have hcond : (errUserTag.isPrefixOf (pyStrip rawLine) &&
        (containsSub notFoundTag (pyStrip rawLine) ||
          containsSub discTag (pyStrip rawLine))) = false := by
      by_cases h1 : errUserTag.isPrefixOf (pyStrip rawLine) = true
      · have h2 : (containsSub notFoundTag (pyStrip rawLine) ||
            containsSub discTag (pyStrip rawLine)) = false := by
          cases hx : containsSub notFoundTag (pyStrip rawLine) with
          | true => exact absurd ⟨h1, Or.inl hx⟩ hmal
          | false =>
            cases hy : containsSub discTag (pyStrip rawLine) with
            | true => exact absurd ⟨h1, Or.inr hy⟩ hmal
            | false => rfl
        rw [h2, Bool.and_false]
      · rw [Bool.eq_false_iff.mpr h1, Bool.false_and]
    have hne : ¬pyStrip rawLine = [] := by
      rw [hL]
      simp
    simp only [processLine, if_neg hne, hfrom, hsys, hcond, Bool.false_eq_true,
      if_false, List.nil_append]
    rw [hL]

/-- Witness for **C9**: the line `ERR User 'A not found` (no closing quote
before the suffix) is reported verbatim and changes nothing. -/
theorem err_malformed_is_generic_witness :
    processLine
        { connected := true, currentTarget := some ['A'],
          targetStack := [['B']], name := [] }
        ("ERR User 'A not found".toList) =
      ({ connected := true, currentTarget := some ['A'],
          targetStack := [['B']], name := [] },
        [Output.raw ("ERR User 'A not found".toList)]) := by
  rw [err_malformed_is_generic
    { connected := true, currentTarget := some ['A'],
      targetStack := [['B']], name := [] }
    ("ERR User 'A not found".toList) (by decide) (by decide)]
  decide

/-- **C10** `send_to_current` with no current target set performs no transport
write, leaves the session state unchanged and returns `True` — the same
result as a successful send; `False` is returned only when a send was
actually attempted (some text reached the transport) and the connection was
lost. -/
theorem send_to_current_no_target_spec (s : ClientState) (msg : Str) (ok : Bool) :
    (s.currentTarget = none →
      sendToCurrent s msg ok = { state := s, ret := true, wire := none }) ∧
    ((sendToCurrent s msg ok).ret = false →
      (sendToCurrent s msg ok).wire.isSome = true ∧
      (sendToCurrent s msg ok).state.connected = false) := by
  constructor
  · intro h
    simp [sendToCurrent, h]
  · intro h
    cases hc : s.currentTarget with
    | none =>
      rw [show sendToCurrent s msg ok = { state := s, ret := true, wire := none }
        from by simp [sendToCurrent, hc]] at h
      simp at h
    | some target =>
      by_cases ht : target = []
      · rw [show sendToCurrent s msg ok = { state := s, ret := true, wire := none }
          from by simp [sendToCurrent, hc, ht]] at h
        simp at h
      · cases ok with
        | true =>
          rw [show sendToCurrent s msg true =
            { state := s, ret := true, wire := some (toWire target msg) }
            from by simp [sendToCurrent, safeSend, hc, ht]] at h
          simp at h
        | false =>
          rw [show sendToCurrent s msg false =
            { state := setDisconnected s, ret := false,
              wire := some (toWire target msg) }
            from by simp [sendToCurrent, safeSend, hc, ht]]
          exact ⟨rfl, rfl⟩

/-- Witness for **C10**: with no target set, nothing is sent and `True` is
returned. -/
theorem send_to_current_no_target_spec_witness :
    sendToCurrent
        { connected := true, currentTarget := none, targetStack := [], name := [] }
        "hi".toList true =
      { state :=
          { connected := true, currentTarget := none, targetStack := [], name := [] },
        ret := true, wire := none } :=
  (send_to_current_no_target_spec
    { connected := true, currentTarget := none, targetStack := [], name := [] }
    "hi".toList true).1 rfl

end Chat
